import Mathlib

/-!
Verification development for the Sysdig/Falco runtime monitor
(`dagda/analysis/runtime/sysdig_falco_monitor.py`).

The Python code is shallowly embedded:

* Python strings are `List Char`; `str.strip` / `str.startswith` /
  `str.split` are modelled by `pyStrip` / `pyStartsWith` / `splitNl`.
* `SysdigFalcoMonitor._parse_log_and_show_dagda_warnings` is `classify`
  (the list it returns is the sequence of warnings the source hands to
  the logger, in emission order); the weekday prefix computed from
  `datetime.datetime.now()` is a parameter `pfx`.
* One iteration of the tailing loop in `SysdigFalcoMonitor.run` is
  `cycle`; a line of the output file is abstracted to its JSON parse
  outcome (`Line`), an uncaught Python exception is `Except.error`.
* `SysdigFalcoMonitor.pre_check` and the pre-tail phase of `run` are
  `pre_check` / `runStartup`, functions from an abstract host
  environment to the list of side effects performed, paired with the
  error raised, if any.
-/

/-! ### Python string primitives over `List Char` -/

/-- The characters Python's `str.strip()` removes (ASCII fragment). -/
def isPySpace (c : Char) : Bool :=
  c = ' ' || c = '\t' || c = '\n' || c = '\r' || c = '\x0b' || c = '\x0c'

/-- Remove trailing `isPySpace` characters (right half of `str.strip()`). -/
def trimRight : List Char → List Char
  | [] => []
  | c :: cs =>
    match trimRight cs with
    | [] => if isPySpace c then [] else [c]
    | r => c :: r

/-- Python `str.strip()`: drop leading and trailing whitespace. -/
def pyStrip (s : List Char) : List Char :=
  trimRight (s.dropWhile isPySpace)

/-- Python `str.startswith(pre)`. -/
def pyStartsWith (pre s : List Char) : Bool :=
  List.isPrefixOf pre s

/-- Python substring membership `needle in hay`. -/
def pyInStr (needle : List Char) : List Char → Bool
  | [] => needle.isEmpty
  | c :: t => List.isPrefixOf needle (c :: t) || pyInStr needle t

/-- Python `str.split("\n")`. -/
def splitNl : List Char → List (List Char)
  | [] => [[]]
  | c :: cs =>
    if c = '\n' then [] :: splitNl cs
    else
      match splitNl cs with
      | r :: rs => (c :: r) :: rs
      | [] => [[c]]

/-! ### Log classifier (`_parse_log_and_show_dagda_warnings`) -/

/-- The literal token `"Rule "` the classifier looks for. -/
def ruleTok : List Char := "Rule ".toList

/-- The loop body of `_parse_log_and_show_dagda_warnings`: `pfx` is
`datetime.datetime.now().strftime("%A")[:3] + ' '`, the second argument the
remaining lines, the third the accumulated `warning` string.  Returns the
warnings passed to `DagdaLogger.get_logger().warning`, in order.  A line
starting with `pfx` is skipped (the whole body sits under
`if line.startswith(date_prefix) is not True`); otherwise the line is
stripped, a stripped line starting with `"Rule "` flushes a non-empty
accumulated warning and resets it, and every non-skipped line is appended to
the accumulator after a space. -/
def classifyAux (pfx : List Char) : List (List Char) → List Char → List (List Char)
  | [], _ => []
  | l :: ls, warning =>
    if pyStartsWith pfx l then classifyAux pfx ls warning
    else
      let t := pyStrip l
      if pyStartsWith ruleTok t then
        (if warning = [] then [] else [pyStrip warning]) ++ classifyAux pfx ls (' ' :: t)
      else classifyAux pfx ls (warning ++ ' ' :: t)

/-- `_parse_log_and_show_dagda_warnings` on a pre-split line list: the
accumulator starts out as the empty string. -/
def classify (pfx : List Char) (lines : List (List Char)) : List (List Char) :=
  classifyAux pfx lines []

/-- `_parse_log_and_show_dagda_warnings` on raw log text: the source first
splits the text on `"\n"`. -/
def parseLogWarnings (pfx text : List Char) : List (List Char) :=
  classify pfx (splitNl text)

/-- The value of the classifier's `warning` accumulator after consuming the
given lines (used to state what the classifier never flushes). -/
def stateAfter (pfx : List Char) : List (List Char) → List Char → List Char
  | [], warning => warning
  | l :: ls, warning =>
    if pyStartsWith pfx l then stateAfter pfx ls warning
    else
      let t := pyStrip l
      if pyStartsWith ruleTok t then stateAfter pfx ls (' ' :: t)
      else stateAfter pfx ls (warning ++ ' ' :: t)

/-- The accumulator update over a run of non-boundary lines:
`warning += ' ' + line.strip()` folded over the lines. -/
def extendW (w : List Char) (ls : List (List Char)) : List Char :=
  ls.foldl (fun acc l => acc ++ ' ' :: pyStrip l) w

/-! ### Tailing loop of `run`: per-line event extraction -/

/-- The `output_fields` sub-object of a Falco JSON record; each key may be
absent (`json_data['output_fields'][k]` raises `KeyError` when absent). -/
structure OutputFields where
  containerId : Option String
  imageRepository : Option String
  imageTag : Option String
deriving DecidableEq

/-- A parsed Falco JSON record: the top-level keys `run` reads. -/
structure RawRecord where
  outputFields : Option OutputFields
  output : Option String
  priority : Option String
  rule : Option String
  time : Option String
deriving DecidableEq

/-- One line of the tailed output file, abstracted to its `json.loads`
outcome: `invalid` when `json.loads` raises, `valid r` when it yields the
record `r`. -/
inductive Line where
  | invalid : Line
  | valid : RawRecord → Line
deriving DecidableEq

/-- An uncaught Python exception escaping the tail loop's line processing:
`json.loads` failure, or a `KeyError` raised outside the `try` block
(on `json_data['output_fields']` or `...['container.id']`). -/
inductive TailError where
  | jsonDecodeError : TailError
  | keyError : TailError
deriving DecidableEq

/-- The event dictionary `run` builds and appends to `sysdig_falco_events`. -/
structure FalcoEvent where
  container_id : String
  image_name : String
  output : String
  priority : String
  rule : String
  time : String
deriving DecidableEq

/-- The sentinel container id meaning the host itself. -/
def hostId : String := "host"

/-- `":" + tag` when the tag is present, nothing otherwise. -/
def tagSuffix : Option String → String
  | none => ""
  | some t => ":" ++ t

/-- The body of the `try` block: build the event dictionary.  The source
reads repository, optionally tag, output, priority, rule, time; a missing
key raises `KeyError`, which the `except` clause turns into skipping the
line, i.e. `none`. -/
def buildFalcoEvent (cid : String) (ofs : OutputFields) (r : RawRecord) : Option FalcoEvent :=
  match ofs.imageRepository, r.output, r.priority, r.rule, r.time with
  | some repo, some o, some p, some ru, some t =>
    some ⟨cid, repo ++ tagSuffix ofs.imageTag, o, p, ru, t⟩
  | _, _, _, _, _ => none

/-- Processing of one line of the tailed file, as in the `for line in
content` body of `run`: `json.loads` failure and a missing
`output_fields` / `container.id` key happen before the `try` block and
escape (`Except.error`); a record whose container id is the host sentinel
yields no event; otherwise the `try` block builds the event, a missing key
inside it being swallowed (`Except.ok none`). -/
def processLine : Line → Except TailError (Option FalcoEvent)
  | Line.invalid => Except.error TailError.jsonDecodeError
  | Line.valid r =>
    match r.outputFields with
    | none => Except.error TailError.keyError
    | some ofs =>
      match ofs.containerId with
      | none => Except.error TailError.keyError
      | some cid =>
        if cid = hostId then Except.ok none
        else Except.ok (buildFalcoEvent cid ofs r)

/-- Processing of all lines read in one tail cycle: events accumulate in
file order; an uncaught exception aborts the whole batch (the partial
`sysdig_falco_events` list is never inserted). -/
def processContent : List Line → Except TailError (List FalcoEvent)
  | [] => Except.ok []
  | l :: ls =>
    match processLine l with
    | Except.error e => Except.error e
    | Except.ok none => processContent ls
    | Except.ok (some ev) => Except.map (fun evs => ev :: evs) (processContent ls)

/-- One iteration of the tail loop: `fbuf.seek(last_file_position)` then
`fbuf.readlines()` reads every line from the cursor to end of file (nothing
when the cursor is at or past the end), and `fbuf.tell()` afterwards is the
end of file, or the unchanged cursor when it was already past the end.  The
file is modelled as its list of lines and the cursor as a line offset. -/
def cycle (file : List Line) (pos : Nat) : Except TailError (List FalcoEvent × Nat) :=
  match processContent (file.drop pos) with
  | Except.error e => Except.error e
  | Except.ok evs => Except.ok (evs, max pos file.length)

/-- Number of lines one cycle reads from the file. -/
def linesRead (file : List Line) (pos : Nat) : Nat :=
  (file.drop pos).length

/-- Whether the cycle calls `bulk_insert_sysdig_falco_events`
(`if len(sysdig_falco_events) > 0`); an aborted cycle never inserts. -/
def cycleInserts (file : List Line) (pos : Nat) : Bool :=
  match cycle file pos with
  | Except.ok (evs, _) => !evs.isEmpty
  | Except.error _ => false

/-! ### `pre_check` and the pre-tail phase of `run`, as effect traces -/

/-- The `DagdaError`s the monitor raises, named after their messages:
`unsupportedHost` is "Linux distribution not supported yet.",
`missingKernelHeaders` is "The kernel headers are not installed in the host
operating system.", `engineUnavailable` is "Error while fetching Docker
server API version.", `deviceUnavailable` is "Runtime error opening device
/host/dev/sysdig0.", `falcoOutputNotFound` is "Falcosecurity/falco output
file not found.". -/
inductive DagdaErr where
  | unsupportedHost : DagdaErr
  | missingKernelHeaders : DagdaErr
  | engineUnavailable : DagdaErr
  | deviceUnavailable : DagdaErr
  | falcoOutputNotFound : DagdaErr
deriving DecidableEq

/-- The observable side effects `pre_check` and `run` perform through the
Docker driver, the MongoDB driver and the logger. -/
inductive Effect where
  | warnKernelHeadersUnchecked : Effect
  | pullImage (name tag : String) : Effect
  | stopContainer (id : String) : Effect
  | removeContainer (id : String) : Effect
  | purgeFalcoEvents : Effect
  | createContainer (id : String) : Effect
  | startContainer (id : String) : Effect
  | fetchLogs (id : String) : Effect
  | operatorWarning (w : List Char) : Effect
deriving DecidableEq

/-- The host environment `pre_check` and `run` interrogate: configuration
flag, `/etc/os-release` NAME, `/.dockerenv` presence, package-manager return
codes, Docker driver state, the ids the engine assigns to the containers the
monitor starts, and the log/file contents it reads. -/
structure HostEnv where
  externalFalco : Bool
  linuxDistro : List Char
  inDockerContainer : Bool
  rpmReturnCode : Int
  dpkgReturnCode : Int
  dockerClientOk : Bool
  falcoContainerIds : List String
  probeContainerId : String
  probeLogs : List Char
  runContainerId : String
  falcoIdsAtRun : List String
  outputFileExists : Bool
  runLogs : List Char
  dayPfx : List Char

/-- `'Red Hat' in linux_distro or 'CentOS' in ... or 'Fedora' in ... or
'openSUSE' in ...` (Python substring membership). -/
def rpmFamily (d : List Char) : Bool :=
  pyInStr ("Red Hat".toList) d || pyInStr ("CentOS".toList) d ||
  pyInStr ("Fedora".toList) d || pyInStr ("openSUSE".toList) d

/-- `'Debian' in linux_distro or 'Ubuntu' in linux_distro`. -/
def debFamily (d : List Char) : Bool :=
  pyInStr ("Debian".toList) d || pyInStr ("Ubuntu".toList) d

/-- The device-open failure string `pre_check` greps the probe logs for. -/
def failureStr : List Char :=
  "Runtime error: error opening device /host/dev/sysdig0".toList

/-- Sequence two effectful phases: the second runs only when the first did
not raise; effects accumulate in order. -/
def andThen (a : List Effect × Option DagdaErr) (k : Unit → List Effect × Option DagdaErr) :
    List Effect × Option DagdaErr :=
  match a with
  | (es, some e) => (es, some e)
  | (es, none) => (es ++ (k ()).1, (k ()).2)

/-- The kernel-headers requirement check of `pre_check`: inside a container
only a warning is logged; otherwise the family-specific package query runs,
an unknown family raises `unsupportedHost`, and a nonzero return code raises
`missingKernelHeaders`. -/
def headersPhase (env : HostEnv) : List Effect × Option DagdaErr :=
  if env.inDockerContainer then ([Effect.warnKernelHeadersUnchecked], none)
  else if rpmFamily env.linuxDistro then
    if env.rpmReturnCode = 0 then ([], none) else ([], some DagdaErr.missingKernelHeaders)
  else if debFamily env.linuxDistro then
    if env.dpkgReturnCode = 0 then ([], none) else ([], some DagdaErr.missingKernelHeaders)
  else ([], some DagdaErr.unsupportedHost)

/-- `stop` then `remove` for each pre-existing falco container. -/
def cleanupEffects : List String → List Effect
  | [] => []
  | i :: is => Effect.stopContainer i :: Effect.removeContainer i :: cleanupEffects is

/-- The throwaway device probe at the end of `pre_check`: start a container
with default entrypoint, read its logs; when the failure string appears,
raise `deviceUnavailable` (neither `docker_stop` nor
`docker_remove_container` runs); otherwise stop, then remove. -/
def probePhase (env : HostEnv) : List Effect × Option DagdaErr :=
  let efs := [Effect.createContainer env.probeContainerId,
              Effect.startContainer env.probeContainerId,
              Effect.fetchLogs env.probeContainerId]
  if pyInStr failureStr env.probeLogs then (efs, some DagdaErr.deviceUnavailable)
  else (efs ++ [Effect.stopContainer env.probeContainerId,
                Effect.removeContainer env.probeContainerId], none)

/-- `SysdigFalcoMonitor.pre_check`: a no-op under externally managed falco
output; otherwise headers check, Docker client check, image pull, cleanup of
pre-existing falco containers, MongoDB collection purge, device probe. -/
def pre_check (env : HostEnv) : List Effect × Option DagdaErr :=
  if env.externalFalco then ([], none)
  else
    andThen (headersPhase env) fun _ =>
    andThen (if env.dockerClientOk then ([], none) else ([], some DagdaErr.engineUnavailable)) fun _ =>
    andThen ([Effect.pullImage ("falcosecurity/falco") ("0.29.0")], none) fun _ =>
    andThen (cleanupEffects env.falcoContainerIds, none) fun _ =>
    andThen ([Effect.purgeFalcoEvents], none) fun _ =>
    probePhase env

/-- The phase of `SysdigFalcoMonitor.run` before the tail loop: under
self-managed falco, start the production container; check the output file
(and, when self-managed, that a falco container is still up); when
self-managed, fetch the container logs once and, if they contain `"Rule "`,
run the classifier and log each warning. -/
def runStartup (env : HostEnv) : List Effect × Option DagdaErr :=
  andThen (if env.externalFalco then ([], none)
           else ([Effect.createContainer env.runContainerId,
                  Effect.startContainer env.runContainerId], none)) fun _ =>
  andThen (if !env.outputFileExists || (!env.externalFalco && env.falcoIdsAtRun.isEmpty)
           then ([], some DagdaErr.falcoOutputNotFound) else ([], none)) fun _ =>
  if env.externalFalco then ([], none)
  else (Effect.fetchLogs env.runContainerId ::
        (if pyInStr ruleTok env.runLogs then
           (classify env.dayPfx (splitNl env.runLogs)).map Effect.operatorWarning
         else []), none)


/-! ### Lemmas about the string primitives -/

theorem dropWhile_isPySpace_idem (s : List Char) :
    (s.dropWhile isPySpace).dropWhile isPySpace = s.dropWhile isPySpace := by
  induction s with
  | nil => rfl
  | cons c cs ih =>
    by_cases h : isPySpace c
    · simp [List.dropWhile_cons, h, ih]
    · simp [List.dropWhile_cons, h]

theorem dropWhile_trimRight (x : List Char) (hx : x.dropWhile isPySpace = x) :
    (trimRight x).dropWhile isPySpace = trimRight x := by
  induction x with
  | nil => rfl
  | cons c cs ih =>
    have hc : isPySpace c = false := by
      by_contra hcc
      rw [Bool.not_eq_false] at hcc
      rw [List.dropWhile_cons, hcc] at hx
      simp only [if_true] at hx
      have := congrArg List.length hx
      simp only [List.length_cons] at this
      have hle : (cs.dropWhile isPySpace).length ≤ cs.length :=
        (List.IsSuffix.sublist (List.dropWhile_suffix _)).length_le
      omega
    rw [trimRight]
    cases htr : trimRight cs with
    | nil => simp [hc]
    | cons r rs => simp [List.dropWhile_cons, hc]

theorem trimRight_idem (x : List Char) : trimRight (trimRight x) = trimRight x := by
  induction x with
  | nil => rfl
  | cons c cs ih =>
    rw [trimRight]
    cases htr : trimRight cs with
    | nil =>
      by_cases hc : isPySpace c <;> simp [hc, trimRight]
    | cons r rs =>
      rw [htr] at ih
      rw [trimRight, ih]

theorem pyStrip_idem (s : List Char) : pyStrip (pyStrip s) = pyStrip s := by
  unfold pyStrip
  rw [dropWhile_trimRight (s.dropWhile isPySpace) (dropWhile_isPySpace_idem s),
    trimRight_idem]

/-! ### Lemmas about the classifier -/

theorem mem_classifyAux_strip (pfx : List Char) (ls : List (List Char)) :
    ∀ warning w, w ∈ classifyAux pfx ls warning → pyStrip w = w := by
  induction ls with
  | nil => intro warning w h; simp [classifyAux] at h
  | cons l ls ih =>
    intro warning w h
    rw [classifyAux] at h
    by_cases hp : pyStartsWith pfx l
    · exact ih _ w (by simpa [hp] using h)
    · simp only [hp, Bool.false_eq_true, if_false] at h
      by_cases hr : pyStartsWith ruleTok (pyStrip l)
      · simp only [hr, if_true, List.mem_append] at h
        rcases h with h | h
        · by_cases hw : warning = []
          · simp [hw] at h
          · simp only [hw, if_false, List.mem_singleton] at h
            rw [h]; exact pyStrip_idem warning
        · exact ih _ w h
      · exact ih _ w (by simpa [hr] using h)

theorem classifyAux_append (pfx : List Char) (xs ys : List (List Char)) :
    ∀ warning, classifyAux pfx (xs ++ ys) warning =
      classifyAux pfx xs warning ++ classifyAux pfx ys (stateAfter pfx xs warning) := by
  induction xs with
  | nil => intro warning; simp [classifyAux, stateAfter]
  | cons l xs ih =>
    intro warning
    rw [List.cons_append, classifyAux, classifyAux, stateAfter]
    by_cases hp : pyStartsWith pfx l
    · simp only [hp, if_true]; exact ih warning
    · by_cases hr : pyStartsWith ruleTok (pyStrip l)
      · simp [hp, hr, ih, List.append_assoc]
      · simp [hp, hr, ih]

theorem classifyAux_skip (pfx l : List Char) (ls : List (List Char)) (warning : List Char)
    (h : pyStartsWith pfx l = true) :
    classifyAux pfx (l :: ls) warning = classifyAux pfx ls warning := by
  rw [classifyAux, h]; simp

theorem stateAfter_skip (pfx l : List Char) (ls : List (List Char)) (warning : List Char)
    (h : pyStartsWith pfx l = true) :
    stateAfter pfx (l :: ls) warning = stateAfter pfx ls warning := by
  rw [stateAfter, h]; simp

theorem classifyAux_no_rule (pfx : List Char) (ls : List (List Char))
    (h : ∀ l ∈ ls, pyStartsWith ruleTok (pyStrip l) = false) :
    ∀ warning, classifyAux pfx ls warning = [] := by
  induction ls with
  | nil => intro warning; rfl
  | cons l ls ih =>
    intro warning
    have hl := h l (List.mem_cons_self l ls)
    have hrest : ∀ x ∈ ls, pyStartsWith ruleTok (pyStrip x) = false :=
      fun x hx => h x (List.mem_cons_of_mem l hx)
    rw [classifyAux]
    by_cases hp : pyStartsWith pfx l
    · simp only [hp, if_true]; exact ih hrest warning
    · simp only [hp, if_false, hl, if_false]
      exact ih hrest _

theorem classifyAux_cont (pfx : List Char) (c rest : List (List Char))
    (h : ∀ l ∈ c, pyStartsWith pfx l = false ∧ pyStartsWith ruleTok (pyStrip l) = false) :
    ∀ warning, classifyAux pfx (c ++ rest) warning =
      classifyAux pfx rest (extendW warning c) := by
  induction c with
  | nil => intro warning; simp [extendW]
  | cons l c ih =>
    intro warning
    have hl := h l (List.mem_cons_self l c)
    have hrest : ∀ x ∈ c, pyStartsWith pfx x = false ∧ pyStartsWith ruleTok (pyStrip x) = false :=
      fun x hx => h x (List.mem_cons_of_mem l hx)
    rw [List.cons_append, classifyAux]
    simp only [hl.1, hl.2, if_false, Bool.false_eq_true]
    rw [ih hrest]
    rfl

theorem extendW_ne_nil (c : List (List Char)) :
    ∀ w : List Char, w ≠ [] → extendW w c ≠ [] := by
  induction c with
  | nil => intro w hw; exact hw
  | cons l c ih =>
    intro w _
    rw [extendW, List.foldl_cons]
    exact ih _ (by simp)

/-! ### Lemmas about `cleanupEffects` -/

theorem stop_mem_cleanupEffects (i : String) (ids : List String) :
    Effect.stopContainer i ∈ cleanupEffects ids ↔ i ∈ ids := by
  induction ids with
  | nil => simp [cleanupEffects]
  | cons j js ih => simp [cleanupEffects, ih]

theorem remove_mem_cleanupEffects (i : String) (ids : List String) :
    Effect.removeContainer i ∈ cleanupEffects ids ↔ i ∈ ids := by
  induction ids with
  | nil => simp [cleanupEffects]
  | cons j js ih => simp [cleanupEffects, ih]

/-! ### Claims about the tail loop's line processing -/

/-- C1, counterexample: a line that is not valid JSON makes `json.loads`
raise outside the `try` block, so processing the line raises instead of
silently skipping it, and so does a valid JSON line missing
`output_fields`; the batch aborts instead of continuing. -/
theorem malformedLine_raises_cex :
    processLine Line.invalid = Except.error TailError.jsonDecodeError ∧
    processContent [Line.invalid] = Except.error TailError.jsonDecodeError ∧
    processLine (Line.valid ⟨none, some ("X"), some ("W"), some ("R"), some ("t")⟩) =
      Except.error TailError.keyError ∧
    processContent [Line.valid ⟨some ⟨none, some ("nginx"), none⟩, some ("X"),
        some ("W"), some ("R"), some ("t")⟩] =
      Except.error TailError.keyError :=
  ⟨rfl, rfl, rfl, rfl⟩

/-- C1, amended: a line that is valid JSON and has `output_fields` with
`container.id`, but is missing one of the fields read inside the `try`
block (`container.image.repository`, `output`, `priority`, `rule`,
`time`), raises no exception, produces zero events, and the loop continues
with the remaining lines unchanged. -/
theorem missingField_skipped (r : RawRecord) (ofs : OutputFields) (cid : String)
    (hof : r.outputFields = some ofs) (hcid : ofs.containerId = some cid)
    (hmiss : ofs.imageRepository = none ∨ r.output = none ∨ r.priority = none ∨
             r.rule = none ∨ r.time = none) :
    processLine (Line.valid r) = Except.ok none ∧
    ∀ rest, processContent (Line.valid r :: rest) = processContent rest := by
  have h1 : processLine (Line.valid r) = Except.ok none := by
    by_cases hh : cid = hostId
    · simp [processLine, hof, hcid, hh]
    · have hb : buildFalcoEvent cid ofs r = none := by
        rcases hrep : ofs.imageRepository with _ | repo <;>
        rcases ho2 : r.output with _ | o <;>
        rcases hp2 : r.priority with _ | p <;>
        rcases hr2 : r.rule with _ | ru <;>
        rcases ht2 : r.time with _ | t
        all_goals simp only [buildFalcoEvent, hrep, ho2, hp2, hr2, ht2]
        all_goals
          first
            | rfl
            | rcases hmiss with h | h | h | h | h <;> simp_all
      simp [processLine, hof, hcid, hh, hb]
  exact ⟨h1, fun rest => by simp [processContent, h1]⟩

/-- C1, amended, witness. -/
theorem missingField_skipped_witness :
    processLine (Line.valid ⟨some ⟨some ("abc"), none, none⟩, some ("X"),
      some ("W"), some ("R"), some ("t")⟩) = Except.ok none :=
  (missingField_skipped _ _ _ rfl rfl (Or.inl rfl)).1

/-- C3: a well-formed record whose container id is not the host sentinel
yields exactly one event carrying all six fields; its image name is the
repository with `":" + tag` appended exactly when the tag is present; the
event is prepended, in order, to whatever the remaining lines produce. -/
theorem wellformed_line_one_event (r : RawRecord) (ofs : OutputFields)
    (cid repo o p ru t : String)
    (hof : r.outputFields = some ofs) (hcid : ofs.containerId = some cid)
    (hhost : cid ≠ hostId) (hrepo : ofs.imageRepository = some repo)
    (ho : r.output = some o) (hp : r.priority = some p)
    (hru : r.rule = some ru) (ht : r.time = some t) :
    processLine (Line.valid r) =
      Except.ok (some ⟨cid, repo ++ tagSuffix ofs.imageTag, o, p, ru, t⟩) ∧
    (ofs.imageTag = none → repo ++ tagSuffix ofs.imageTag = repo) ∧
    (∀ tg, ofs.imageTag = some tg →
      repo ++ tagSuffix ofs.imageTag = repo ++ (":" ++ tg)) ∧
    ∀ rest, processContent (Line.valid r :: rest) =
      Except.map (fun evs => ⟨cid, repo ++ tagSuffix ofs.imageTag, o, p, ru, t⟩ :: evs)
        (processContent rest) := by
  have h1 : processLine (Line.valid r) =
      Except.ok (some ⟨cid, repo ++ tagSuffix ofs.imageTag, o, p, ru, t⟩) := by
    simp [processLine, hof, hcid, hhost, buildFalcoEvent, hrepo, ho, hp, hru, ht]
  refine ⟨h1, ?_, ?_, fun rest => by simp [processContent, h1]⟩
  · intro htag; simp [htag, tagSuffix]
  · intro tg htag; simp [htag, tagSuffix]

/-- C3, witness: the spec's scenario record (nginx, tag 1.21). -/
theorem wellformed_line_one_event_witness :
    processLine (Line.valid ⟨some ⟨some ("abc"), some ("nginx"), some ("1.21")⟩,
      some ("X"), some ("WARNING"), some ("R1"), some ("t1")⟩) =
      Except.ok (some ⟨"abc", "nginx" ++ tagSuffix (some ("1.21")), "X", "WARNING",
        "R1", "t1"⟩) :=
  (wellformed_line_one_event _ _ _ _ _ _ _ _ rfl rfl (by decide) rfl rfl rfl rfl rfl).1

/-- C4: a record whose container id is the host sentinel produces no event
and contributes nothing to the batch forwarded to the event store. -/
theorem host_line_no_event (r : RawRecord) (ofs : OutputFields)
    (hof : r.outputFields = some ofs) (hcid : ofs.containerId = some hostId) :
    processLine (Line.valid r) = Except.ok none ∧
    ∀ rest, processContent (Line.valid r :: rest) = processContent rest := by
  have h1 : processLine (Line.valid r) = Except.ok none := by
    simp [processLine, hof, hcid]
  exact ⟨h1, fun rest => by simp [processContent, h1]⟩

/-- C4, witness. -/
theorem host_line_no_event_witness :
    processLine (Line.valid ⟨some ⟨some ("host"), some ("nginx"), none⟩,
      some ("X"), some ("W"), some ("R"), some ("t")⟩) = Except.ok none :=
  (host_line_no_event _ _ rfl rfl).1

/-- `stateAfter` distributes over list append. -/
theorem stateAfter_append (pfx : List Char) (xs ys : List (List Char)) :
    ∀ warning, stateAfter pfx (xs ++ ys) warning =
      stateAfter pfx ys (stateAfter pfx xs warning) := by
  induction xs with
  | nil => intro warning; simp [stateAfter]
  | cons l xs ih =>
    intro warning
    rw [List.cons_append, stateAfter, stateAfter]
    by_cases hp : pyStartsWith pfx l
    · simp only [hp, if_true]; exact ih warning
    · by_cases hr : pyStartsWith ruleTok (pyStrip l)
      · simp [hp, hr, ih]
      · simp [hp, hr, ih]

/-- `stateAfter` over a run of continuation lines is the space-joined
accumulation `extendW`. -/
theorem stateAfter_cont (pfx : List Char) (c rest : List (List Char))
    (h : ∀ l ∈ c, pyStartsWith pfx l = false ∧ pyStartsWith ruleTok (pyStrip l) = false) :
    ∀ warning, stateAfter pfx (c ++ rest) warning =
      stateAfter pfx rest (extendW warning c) := by
  induction c with
  | nil => intro warning; simp [extendW]
  | cons l c ih =>
    intro warning
    have hl := h l (List.mem_cons_self l c)
    have hrest : ∀ x ∈ c, pyStartsWith pfx x = false ∧ pyStartsWith ruleTok (pyStrip x) = false :=
      fun x hx => h x (List.mem_cons_of_mem l hx)
    rw [List.cons_append, stateAfter]
    simp only [hl.1, hl.2, Bool.false_eq_true, if_false]
    rw [ih hrest]
    rfl

/-! ### Claims about the tail cycle's cursor -/

/-- C9: the cursor a successful cycle reports never lies before the cursor
it started from; and a cycle whose cursor is already at or past the end of
the file reads zero lines, produces zero events, performs no insertion, and
leaves the cursor unchanged. -/
theorem tail_cursor_monotone_idempotent (file : List Line) (pos : Nat) :
    (∀ evs pos2, cycle file pos = Except.ok (evs, pos2) → pos ≤ pos2) ∧
    (file.length ≤ pos →
      linesRead file pos = 0 ∧ cycle file pos = Except.ok ([], pos) ∧
      cycleInserts file pos = false) := by
  constructor
  · intro evs pos2 h
    unfold cycle at h
    cases hc : processContent (file.drop pos) with
    | error e => rw [hc] at h; cases h
    | ok evs2 =>
      rw [hc] at h
      simp only [Except.ok.injEq, Prod.mk.injEq] at h
      rw [← h.2]
      exact le_max_left pos file.length
  · intro hle
    have hdrop : file.drop pos = [] := List.drop_eq_nil_of_le hle
    have hmax : max pos file.length = pos := Nat.max_eq_left hle
    refine ⟨?_, ?_, ?_⟩
    · simp [linesRead, hdrop]
    · simp [cycle, hdrop, processContent, hmax]
    · simp [cycleInserts, cycle, hdrop, processContent, hmax]

/-- C9, witness: a one-line file with the cursor already past the end. -/
theorem tail_cursor_monotone_idempotent_witness :
    (1 ≤ 3 ∧ linesRead [Line.invalid] 3 = 0 ∧
      cycle [Line.invalid] 3 = Except.ok ([], 3) ∧
      cycleInserts [Line.invalid] 3 = false) ∧ 3 ≤ 3 :=
  ⟨⟨by decide,
    (tail_cursor_monotone_idempotent [Line.invalid] 3).2 (by decide)⟩,
   (tail_cursor_monotone_idempotent [Line.invalid] 3).1 [] 3 rfl⟩

/-! ### Claims about the log classifier -/

/-- C2, counterexample: an input with exactly two `"Rule "` blocks (each
with one continuation line) emits exactly one warning, not two — the
classifier flushes only when the next `"Rule "` line arrives, so the last
block's accumulated warning is never emitted. -/
theorem twoRuleBlocks_one_warning_cex :
    parseLogWarnings ("Mon ".toList) ("Rule one\n c1\nRule two\n c2".toList) =
      [("Rule one c1").toList] ∧
    (parseLogWarnings ("Mon ".toList) ("Rule one\n c1\nRule two\n c2".toList)).length ≠ 2 := by
  exact ⟨rfl, by decide⟩

/-- C2, amended: an input with no line whose stripped text begins with
`"Rule "` emits zero warnings; an input made of exactly two `"Rule "`
blocks emits exactly one warning — the first block's, the space-join of its
stripped lines — while the second block only remains in the never-flushed
accumulator. -/
theorem classifier_block_behavior (pfx : List Char) (lines : List (List Char)) :
    ((∀ l ∈ lines, pyStartsWith ruleTok (pyStrip l) = false) →
      classify pfx lines = []) ∧
    (∀ r1 r2 : List Char, ∀ c1 c2 : List (List Char),
      lines = r1 :: (c1 ++ r2 :: c2) →
      pyStartsWith pfx r1 = false → pyStartsWith ruleTok (pyStrip r1) = true →
      (∀ l ∈ c1, pyStartsWith pfx l = false ∧ pyStartsWith ruleTok (pyStrip l) = false) →
      pyStartsWith pfx r2 = false → pyStartsWith ruleTok (pyStrip r2) = true →
      (∀ l ∈ c2, pyStartsWith pfx l = false ∧ pyStartsWith ruleTok (pyStrip l) = false) →
      classify pfx lines = [pyStrip (extendW (' ' :: pyStrip r1) c1)] ∧
      stateAfter pfx lines [] = extendW (' ' :: pyStrip r2) c2) := by
  constructor
  · intro h
    exact classifyAux_no_rule pfx lines h []
  · intro r1 r2 c1 c2 hlines h1p h1r hc1 h2p h2r hc2
    subst hlines
    have hne : extendW (' ' :: pyStrip r1) c1 ≠ [] :=
      extendW_ne_nil c1 (' ' :: pyStrip r1) (by simp)
    constructor
    · rw [classify, classifyAux]
      simp only [h1p, Bool.false_eq_true, if_false, h1r, if_true, if_pos rfl,
        List.nil_append]
      rw [classifyAux_cont pfx c1 (r2 :: c2) hc1, classifyAux]
      simp only [h2p, Bool.false_eq_true, if_false, h2r, if_true, hne,
        if_neg hne]
      rw [classifyAux_no_rule pfx c2 (fun l hl => (hc2 l hl).2)]
      simp
    · rw [stateAfter]
      simp only [h1p, Bool.false_eq_true, if_false, h1r, if_true]
      rw [stateAfter_cont pfx c1 (r2 :: c2) hc1, stateAfter]
      simp only [h2p, Bool.false_eq_true, if_false, h2r, if_true]
      have := stateAfter_cont pfx c2 [] hc2 (' ' :: pyStrip r2)
      simpa [stateAfter] using this

/-- C2, amended, witness: the two-block scenario. -/
theorem classifier_block_behavior_witness :
    classify ("Mon ".toList)
      [("Rule one").toList, (" c1").toList, ("Rule two").toList, (" c2").toList] =
      [pyStrip (extendW (' ' :: pyStrip (("Rule one").toList)) [(" c1").toList])] :=
  ((classifier_block_behavior ("Mon ".toList)
      [("Rule one").toList, (" c1").toList, ("Rule two").toList, (" c2").toList]).2
    (("Rule one").toList) (("Rule two").toList) [(" c1").toList] [(" c2").toList]
    rfl (by decide) (by decide) (by decide) (by decide) (by decide) (by decide)).1

/-- C5, counterexample: with weekday prefix `"Mon "`, the line `"Mon zzz"`
is not included in any warning: the only emitted warning is `"Rule A"` and
the final accumulator is `" Rule B"`, neither containing it. -/
theorem weekday_line_skipped_cex :
    classify ("Mon ".toList)
      [("Rule A").toList, ("Mon zzz").toList, ("Rule B").toList] =
      [("Rule A").toList] ∧
    pyInStr (("Mon zzz").toList) (("Rule A").toList) = false ∧
    stateAfter ("Mon ".toList)
      [("Rule A").toList, ("Mon zzz").toList, ("Rule B").toList] [] =
      (" Rule B").toList ∧
    pyInStr (("Mon zzz").toList) ((" Rule B").toList) = false := by
  exact ⟨rfl, by decide, rfl, by decide⟩

/-- C5, amended: a line beginning with the current weekday's three-letter
abbreviation plus a space is skipped entirely: deleting it anywhere in the
input changes neither the emitted warnings nor the final accumulator, so it
is never part of a warning and never a boundary. -/
theorem weekday_line_ignored (pfx l : List Char) (xs ys : List (List Char))
    (h : pyStartsWith pfx l = true) :
    classify pfx (xs ++ l :: ys) = classify pfx (xs ++ ys) ∧
    stateAfter pfx (xs ++ l :: ys) [] = stateAfter pfx (xs ++ ys) [] := by
  constructor
  · rw [classify, classify, classifyAux_append, classifyAux_append,
      classifyAux_skip pfx l ys _ h]
  · rw [stateAfter_append, stateAfter_append, stateAfter_skip pfx l ys _ h]

/-- C5, amended, witness. -/
theorem weekday_line_ignored_witness :
    classify ("Mon ".toList)
      ([("Rule A").toList] ++ ("Mon zzz").toList :: [("x").toList]) =
      classify ("Mon ".toList) ([("Rule A").toList] ++ [("x").toList]) :=
  (weekday_line_ignored ("Mon ".toList) (("Mon zzz").toList)
    [("Rule A").toList] [("x").toList] (by decide)).1

/-- C10: every warning the classifier emits is exactly the `strip` of the
accumulator, hence has no leading or trailing whitespace; and the warnings
of an input prefix form a prefix of the warnings of the whole input, so
warnings appear in the order of the input lines that flush them. -/
theorem classifier_warnings_trimmed_ordered (pfx : List Char) :
    (∀ lines, ∀ w ∈ classify pfx lines, pyStrip w = w) ∧
    (∀ xs ys, classify pfx xs <+: classify pfx (xs ++ ys)) := by
  constructor
  · intro lines w hw
    exact mem_classifyAux_strip pfx lines [] w hw
  · intro xs ys
    rw [classify, classify, classifyAux_append]
    exact ⟨_, rfl⟩

/-- C10, witness. -/
theorem classifier_warnings_trimmed_ordered_witness :
    pyStrip (("Rule one c1").toList) = ("Rule one c1").toList ∧
    classify ("Mon ".toList) [("Rule A").toList] <+:
      classify ("Mon ".toList) ([("Rule A").toList] ++ [("Rule B").toList]) :=
  ⟨(classifier_warnings_trimmed_ordered ("Mon ".toList)).1
      [("Rule one").toList, (" c1").toList, ("Rule two").toList]
      (("Rule one c1").toList) (by decide),
   (classifier_warnings_trimmed_ordered ("Mon ".toList)).2
      [("Rule A").toList] [("Rule B").toList]⟩

/-! ### Claims about `pre_check` and the startup phase of `run` -/

/-- C6: self-managed, outside a container, on a Debian-family (non
RPM-family) host whose headers lookup fails, `pre_check` raises the
kernel-headers error having performed no effect at all — in particular no
container is created or started; on a host of neither family it raises the
unsupported-distribution error, again with no effects. -/
theorem precheck_headers_failures (env : HostEnv)
    (hext : env.externalFalco = false) (hdock : env.inDockerContainer = false) :
    (rpmFamily env.linuxDistro = false → debFamily env.linuxDistro = true →
      env.dpkgReturnCode ≠ 0 →
      pre_check env = ([], some DagdaErr.missingKernelHeaders)) ∧
    (rpmFamily env.linuxDistro = false → debFamily env.linuxDistro = false →
      pre_check env = ([], some DagdaErr.unsupportedHost)) := by
  constructor
  · intro hrpm hdeb hdpkg
    simp [pre_check, hext, headersPhase, hdock, hrpm, hdeb, hdpkg, andThen]
  · intro hrpm hdeb
    simp [pre_check, hext, headersPhase, hdock, hrpm, hdeb, andThen]

/-- A self-managed host environment reporting Ubuntu whose
`dpkg -l linux-headers-$(uname -r)` query exits nonzero. -/
def ubuntuEnv : HostEnv :=
  ⟨false, ("Ubuntu").toList, false, 0, 1, true, [], "p1", [], "r1", [], true, [],
   ("Mon ").toList⟩

/-- C6, witness: the spec's Ubuntu scenario. -/
theorem precheck_headers_failures_witness :
    pre_check ubuntuEnv = ([], some DagdaErr.missingKernelHeaders) :=
  (precheck_headers_failures ubuntuEnv rfl rfl).1 (by decide) (by decide) (by decide)

/-- C7: once `pre_check` reaches the throwaway device probe, if the
device-open failure string occurs in the probe instance's logs it raises
the device error and, among all performed effects, never stops or removes
the probe instance; otherwise it raises nothing and both stops and removes
it. -/
theorem precheck_probe_outcomes (env : HostEnv)
    (hext : env.externalFalco = false) (hdock : env.inDockerContainer = true)
    (hcli : env.dockerClientOk = true)
    (hnm : env.probeContainerId ∉ env.falcoContainerIds) :
    (pyInStr failureStr env.probeLogs = true →
      ∃ es, pre_check env = (es, some DagdaErr.deviceUnavailable) ∧
        Effect.stopContainer env.probeContainerId ∉ es ∧
        Effect.removeContainer env.probeContainerId ∉ es) ∧
    (pyInStr failureStr env.probeLogs = false →
      ∃ es, pre_check env = (es, none) ∧
        Effect.stopContainer env.probeContainerId ∈ es ∧
        Effect.removeContainer env.probeContainerId ∈ es) := by
  constructor
  · intro hfail
    refine ⟨Effect.warnKernelHeadersUnchecked ::
        Effect.pullImage ("falcosecurity/falco") ("0.29.0") ::
        (cleanupEffects env.falcoContainerIds ++
          [Effect.purgeFalcoEvents, Effect.createContainer env.probeContainerId,
           Effect.startContainer env.probeContainerId,
           Effect.fetchLogs env.probeContainerId]), ?_, ?_, ?_⟩
    · simp [pre_check, hext, headersPhase, hdock, hcli, andThen, probePhase, hfail]
    · simp [List.mem_cons, List.mem_append, stop_mem_cleanupEffects, hnm]
    · simp [List.mem_cons, List.mem_append, remove_mem_cleanupEffects, hnm]
  · intro hfail
    refine ⟨Effect.warnKernelHeadersUnchecked ::
        Effect.pullImage ("falcosecurity/falco") ("0.29.0") ::
        (cleanupEffects env.falcoContainerIds ++
          [Effect.purgeFalcoEvents, Effect.createContainer env.probeContainerId,
           Effect.startContainer env.probeContainerId,
           Effect.fetchLogs env.probeContainerId,
           Effect.stopContainer env.probeContainerId,
           Effect.removeContainer env.probeContainerId]), ?_, ?_, ?_⟩
    · simp [pre_check, hext, headersPhase, hdock, hcli, andThen, probePhase, hfail]
    · simp [List.mem_cons, List.mem_append]
    · simp [List.mem_cons, List.mem_append]

/-- An environment whose probe logs contain the device-open failure. -/
def probeFailEnv : HostEnv :=
  ⟨false, ("Ubuntu").toList, true, 0, 0, true, ["old1"], "p1", failureStr, "r1", [],
   true, [], ("Mon ").toList⟩

/-- C7, witness: the device-open failure is in the probe logs. -/
theorem precheck_probe_outcomes_witness :
    ∃ es, pre_check probeFailEnv = (es, some DagdaErr.deviceUnavailable) ∧
      Effect.stopContainer probeFailEnv.probeContainerId ∉ es ∧
      Effect.removeContainer probeFailEnv.probeContainerId ∉ es :=
  (precheck_probe_outcomes probeFailEnv rfl rfl rfl (by decide)).1 (by decide)

/-- C8: with externally managed falco output, `pre_check` performs no
effect and raises nothing, and the startup phase of `run` (given the output
file exists) performs no effect either — no container is created or
started, no engine logs are read — so `run` proceeds straight to tailing. -/
theorem external_mode_no_effects (env : HostEnv) (hext : env.externalFalco = true) :
    pre_check env = ([], none) ∧
    (env.outputFileExists = true → runStartup env = ([], none)) := by
  constructor
  · simp [pre_check, hext]
  · intro hout
    simp [runStartup, hext, hout, andThen]

/-- An externally managed environment with an existing output file. -/
def externalEnv : HostEnv :=
  ⟨true, ("Ubuntu").toList, false, 0, 0, false, [], "p1", [], "r1", [], true, [],
   ("Mon ").toList⟩

/-- C8, witness. -/
theorem external_mode_no_effects_witness :
    pre_check externalEnv = ([], none) ∧ runStartup externalEnv = ([], none) :=
  ⟨(external_mode_no_effects externalEnv rfl).1,
   (external_mode_no_effects externalEnv rfl).2 rfl⟩
